import Mathlib

/-
Verification of the controlflow decorator/inline-run layer
(src/src/controlflow/dx.py, src/src/controlflow/decorators.py,
src/src/controlflow/core/agent.py) against its specification.

The Python code is shallowly embedded: values, tasks, agents, flows and the
controller become plain Lean data; the external assistant runtime and the
external workflow engine (not part of the excerpt) are modelled as explicit
parameters, following the specification where the excerpt leaves them opaque.
-/

set_option linter.unusedVariables false

namespace ControlFlow

/-- Runtime values handled by the layer: strings and integers suffice for the
observable behavior of the excerpt (task results, context entries). -/
inductive Value where
  | vstr (s : String)
  | vint (n : Int)
deriving DecidableEq

/-- Modelled from the spec: a Python type annotation as recorded in a
function's annotations mapping (the result type descriptor of a Task). -/
inductive TypeAnnot where
  | str
  | int
  | bool
  | custom (n : String)
deriving DecidableEq

/-- Modelled from the spec: the TaskStatus enum of controlflow.core.task
(module not in the excerpt): pending, running, successful, failed. -/
inductive TaskStatus where
  | pending
  | running
  | successful
  | failed
deriving DecidableEq

/-- Tool descriptors. A declared tool carries a name; the distinguished
human constructor is the human-interaction tool produced from talk_to_human;
wrapped marks the result of the external-runtime adaptation step. -/
inductive Tool where
  | declared (n : String)
  | human
  | wrapped (t : Tool)
deriving DecidableEq

/-- The Agent model (src/src/controlflow/core/agent.py): a named actor with a
user_access flag. objectId models CPython object identity (the value of
id(self)), unique per live object; declaredTools models the tool list the
external Assistant base class reports from super().get_tools(). -/
structure Agent where
  objectId : Nat
  name : String
  user_access : Bool
  declaredTools : List Tool
deriving DecidableEq

/-- Modelled from the spec: a Task is a unit of work with an objective,
optional instructions, context, optional result type, tools, optional agents,
a user_access flag, a status and a result (controlflow.core.task is not in
the excerpt; fields follow the data model of the spec and the constructor
calls in dx.py and decorators.py). -/
structure Task where
  objective : String
  instructions : Option String
  agents : Option (List Agent)
  context : List (String × Value)
  result_type : Option TypeAnnot
  user_access : Bool
  tools : List Tool
  status : TaskStatus
  result : Option Value
deriving DecidableEq

/-- Modelled from the spec: a freshly constructed Task starts pending with no
result; the remaining fields are exactly the constructor arguments. -/
def newTask (objective : String) (instructions : Option String)
    (agents : Option (List Agent)) (context : List (String × Value))
    (result_type : Option TypeAnnot) (user_access : Bool)
    (tools : List Tool) : Task :=
  { objective := objective
    instructions := instructions
    agents := agents
    context := context
    result_type := result_type
    user_access := user_access
    tools := tools
    status := TaskStatus.pending
    result := none }

/-- Modelled from the spec: a Flow holds an external thread handle and the
context of bound call arguments (controlflow.core.flow is not in the
excerpt). -/
structure Flow where
  threadId : String
  context : List (String × Value)
deriving DecidableEq

/-- Modelled from the spec: a Controller is transient, holding references to
agents, tasks and the (possibly absent) flow for one orchestration run
(controlflow.core.controller is not in the excerpt). -/
structure Controller where
  agents : List Agent
  tasks : List Task
  flow : Option Flow
deriving DecidableEq

/-- Modelled from the spec: wrap_prefect_tool, the external-runtime
adaptation step, a side-effect-free wrapping of a tool. -/
def wrap_prefect_tool (t : Tool) : Tool :=
  Tool.wrapped t

/-- Embedding of Agent.get_tools (src/src/controlflow/core/agent.py, lines
36 to 41): take the declared tools, append the human-interaction tool
exactly when user_access is set, and pass every tool through
wrap_prefect_tool. -/
def Agent.get_tools (a : Agent) : List Tool :=
  let tools := a.declaredTools ++ (if a.user_access then [Tool.human] else [])
  tools.map wrap_prefect_tool

/-- Embedding of the Agent hash (src/src/controlflow/core/agent.py, lines 53
to 54): the hash of an agent is id(self), modelled by its object-identity
tag. -/
def Agent.hashId (a : Agent) : Nat :=
  a.objectId

/-- Modelled from the spec: a suspension-capable computation, shallowly
embedded as a thunk; the suspension points are opaque to the excerpt. -/
def AsyncComp (α : Type) : Type :=
  Unit → α

/-- Modelled from the spec: synchronously driving a suspension-capable
computation to completion (the behavior of the external expose_sync_method
wrapper). -/
def runSync {α : Type} (c : AsyncComp α) : α :=
  c ()

/-- Embedding of Agent.run_async (src/src/controlflow/core/agent.py, lines
43 to 51): normalize a single Task to a one-element list and a missing task
argument to the empty list, resolve the ambient flow (get_flow is external;
an absent ambient flow models its no-active-flow error), build a Controller
over exactly this agent, and delegate to the external controller runtime. -/
def Agent.run_async (a : Agent) (tasks : Option (Task ⊕ List Task))
    (ambient : Option Flow)
    (runtime : Controller → Except String Value) :
    AsyncComp (Except String Value) :=
  fun _ =>
    let tasksList : List Task :=
      match tasks with
      | some (Sum.inl t) => [t]
      | some (Sum.inr l) => l
      | none => []
    match ambient with
    | none => Except.error "no active flow"
    | some f => runtime { agents := [a], tasks := tasksList, flow := some f }

/-- Embedding of the blocking run form of the agent. Modelled from the spec:
the wrapper is generated by the external expose_sync_method decorator, which
synchronously drives run_async to completion. -/
def Agent.run (a : Agent) (tasks : Option (Task ⊕ List Task))
    (ambient : Option Flow)
    (runtime : Controller → Except String Value) :
    Except String Value :=
  runSync (Agent.run_async a tasks ambient runtime)

/-- A parameter of a Python function signature: its name and, when present,
its declared default value. The excerpt's decorated functions use
positional-or-keyword parameters, which this embedding covers. -/
structure Param where
  name : String
  default : Option Value
deriving DecidableEq

/-- Embedding of inspect Signature.bind for positional-or-keyword
parameters: positional arguments are matched to parameters in order, the
remaining parameters are matched by keyword; it raises on too many
positional arguments, on an unexpected keyword, on a keyword duplicating a
positionally bound parameter, and on a missing required argument. The
resulting mapping holds exactly the explicitly bound parameters. -/
def bindArgs (params : List Param) (pos : List Value)
    (kw : List (String × Value)) : Except String (List (String × Value)) :=
  if params.length < pos.length then
    Except.error "too many positional arguments"
  else if kw.any (fun a => params.all (fun p => p.name != a.1)) then
    Except.error "got an unexpected keyword argument"
  else if kw.any (fun a => (params.take pos.length).any (fun p => p.name == a.1)) then
    Except.error "got multiple values for argument"
  else if (params.drop pos.length).any
      (fun p => p.default.isNone && kw.all (fun a => a.1 != p.name)) then
    Except.error "missing a required argument"
  else
    Except.ok
      (((params.take pos.length).zip pos).map (fun x => (x.1.name, x.2)) ++
        (params.drop pos.length).filterMap
          (fun p => (kw.lookup p.name).map (fun v => (p.name, v))))

/-- Embedding of BoundArguments.apply_defaults: every signature parameter,
in declaration order, is mapped to its bound value or, when unbound, to its
declared default. -/
def applyDefaults (params : List Param) (m : List (String × Value)) :
    List (String × Value) :=
  params.filterMap fun p =>
    match m.lookup p.name with
    | some v => some (p.name, v)
    | none => p.default.map fun d => (p.name, d)

/-- The argument-binding step shared by the decorator wrappers: sig.bind
followed by bound.apply_defaults, yielding bound.arguments. It appears
verbatim in the flow wrapper (decorators.py lines 73 to 74), the task
wrapper (decorators.py lines 168 to 169) and the dx task wrapper (dx.py
lines 51 to 52). -/
def boundContext (params : List Param) (pos : List Value)
    (kw : List (String × Value)) : Except String (List (String × Value)) :=
  (bindArgs params pos kw).map (applyDefaults params)

/-- A Python function as seen by the decorators: its dunder name, docstring,
signature parameters and declared return annotation. -/
structure PyFunction where
  name : String
  doc : Option String
  params : List Param
  returnAnnot : Option TypeAnnot
deriving DecidableEq

/-- Embedding of the task decorator of src/src/controlflow/decorators.py
(lines 147 to 184) applied to a call of the wrapped function: the objective
defaults to the function name and the instructions to the docstring, the
call arguments are bound as context, and the Task is constructed with the
function's return annotation as result type. Running the task is external;
the constructed Task is returned. -/
def decoratorsTask (fn : PyFunction) (objective : Option String)
    (instructions : Option String) (agents : Option (List Agent))
    (tools : Option (List Tool)) (user_access : Option Bool)
    (pos : List Value) (kw : List (String × Value)) : Except String Task :=
  let objective :=
    match objective with
    | none => fn.name
    | some o => o
  let instructions :=
    match instructions with
    | none => fn.doc
    | some i => some i
  (boundContext fn.params pos kw).map fun bound =>
    newTask objective instructions agents bound fn.returnAnnot
      (user_access.getD false) (tools.getD [])

/-- Embedding of the task decorator of src/src/controlflow/dx.py (lines 18
to 66) applied to a call of the wrapped function: the objective defaults to
the function name, prefixed to the docstring when a non-empty docstring
exists; no instructions are passed to the Task; the call arguments are
bound as context; the agents are the call-time agents when truthy, else the
decoration-time agents. -/
def dxTask (fn : PyFunction) (objective : Option String)
    (agents : Option (List Agent)) (tools : Option (List Tool))
    (user_access : Option Bool) (callAgents : Option (List Agent))
    (pos : List Value) (kw : List (String × Value)) : Except String Task :=
  let objective :=
    match objective with
    | some o => o
    | none =>
      match fn.doc with
      | some d => if d = "" then fn.name else fn.name ++ ": " ++ d
      | none => fn.name
  let taskAgents :=
    match callAgents with
    | some l => if l.isEmpty then agents else some l
    | none => agents
  (boundContext fn.params pos kw).map fun bound =>
    newTask objective none taskAgents bound fn.returnAnnot
      (user_access.getD false) (tools.getD [])

/-- The cast argument of run_ai after sentinel resolution: Python None (no
coercion) or the str type (coerce to string). These are the two values the
defaulting logic of run_ai can produce. -/
inductive CastVal where
  | pyNone
  | pyStr
deriving DecidableEq

/-- Modelled from the spec: the Python str() rendering of a value. -/
def strOfValue : Value → String
  | Value.vstr s => s
  | Value.vint n => toString n

/-- Modelled from the spec: applying a requested cast type to a task result;
the str cast renders the value as a string, the absent cast leaves the
result untouched. -/
def applyCast : CastVal → Option Value → Option Value
  | CastVal.pyNone, v => v
  | CastVal.pyStr, some v => some (Value.vstr (strOfValue v))
  | CastVal.pyStr, none => some (Value.vstr "None")

/-- Embedding of the Python expression joining the failed objectives with a
comma separator (str.join with separator comma-space). -/
def joinComma : List String → String
  | [] => ""
  | [s] => s
  | s :: rest => s ++ ", " ++ joinComma rest

/-- Substring containment: obj occurs contiguously inside msg. -/
def ContainsSubstr (msg obj : String) : Prop :=
  ∃ p q, msg = p ++ obj ++ q

/-- The objective strings run_ai was given: a single string is kept as a
one-element list, mirroring the normalization at dx.py lines 102 to 106. -/
def objectivesOf : String ⊕ List String → List String
  | Sum.inl s => [s]
  | Sum.inr l => l

/-- The value run_ai produces when it does not raise: a bare unwrapped
result, a list of results, or Python's implicit None return. -/
inductive RunAiValue where
  | single (v : Option Value)
  | list (vs : List (Option Value))
  | noneReturn
deriving DecidableEq

/-- Modelled from the spec: the external Controller run drives the created
tasks to their post-run states; the i-th created task receives the status
and result given by outcome i, its remaining fields untouched. -/
def runTasks (outcome : Nat → TaskStatus × Option Value) :
    Nat → List Task → List Task
  | _, [] => []
  | i, t :: ts =>
    { t with status := (outcome i).1, result := (outcome i).2 } ::
      runTasks outcome (i + 1) ts

/-- Embedding of run_ai (src/src/controlflow/dx.py, lines 83 to 152): a
single objective string is normalized to a one-element list while recording
the unwrap flag; the cast sentinel defaults to no coercion for an empty
objective list and to str otherwise; one fresh Task per objective shares
the context, tools and user_access; a default Agent is created when none are
supplied; a Controller over the ambient flow is built and run (the run is
external, modelled by outcome). Afterwards: if all tasks are successful the
results are returned in creation order (unwrapped for a single string), else
if any task failed an error listing every failed objective is raised, and in
every remaining case the function falls through to Python's implicit None. -/
def run_ai (tasksArg : String ⊕ List String) (agents : Option (List Agent))
    (cast : Option CastVal) (context : Option (List (String × Value)))
    (tools : Option (List Tool)) (user_access : Bool) (flow : Option Flow)
    (outcome : Nat → TaskStatus × Option Value) : Except String RunAiValue :=
  let single_result : Bool :=
    match tasksArg with
    | Sum.inl _ => true
    | Sum.inr _ => false
  let objectives : List String := objectivesOf tasksArg
  let castV : CastVal :=
    match cast with
    | some c => c
    | none => if objectives.isEmpty then CastVal.pyNone else CastVal.pyStr
  let created : List Task := objectives.map fun t =>
    newTask t none none (context.getD []) none user_access (tools.getD [])
  let agentsUsed : List Agent :=
    match agents with
    | none => [{ objectId := 0, name := "Marvin", user_access := user_access,
                 declaredTools := [] }]
    | some l => l
  let controller : Controller :=
    { agents := agentsUsed, tasks := created, flow := flow }
  let tasks : List Task := runTasks outcome 0 created
  if tasks.isEmpty then Except.ok RunAiValue.noneReturn
  else if tasks.all fun t => decide (t.status = TaskStatus.successful) then
    let result : List (Option Value) := tasks.map Task.result
    if single_result then Except.ok (RunAiValue.single result.headI)
    else Except.ok (RunAiValue.list result)
  else
    let failed_tasks : List Task :=
      tasks.filter fun t => decide (t.status = TaskStatus.failed)
    if failed_tasks.isEmpty then Except.ok RunAiValue.noneReturn
    else
      Except.error
        ("Failed tasks: " ++ joinComma (failed_tasks.map Task.objective))

theorem runTasks_length (o : Nat → TaskStatus × Option Value) :
    ∀ (l : List Task) (i : Nat), (runTasks o i l).length = l.length := by
  intro l
  induction l with
  | nil => intro i; rfl
  | cons t ts ih => intro i; simp [runTasks, ih]

theorem runTasks_map_result (o : Nat → TaskStatus × Option Value) :
    ∀ (l : List Task) (i : Nat),
      (runTasks o i l).map Task.result =
        (List.range' i l.length).map fun j => (o j).2 := by
  intro l
  induction l with
  | nil => intro i; rfl
  | cons t ts ih =>
    intro i
    simp [runTasks, List.range'_succ, ih (i + 1)]

theorem runTasks_all_success (o : Nat → TaskStatus × Option Value) :
    ∀ (l : List Task) (i : Nat),
      ((runTasks o i l).all fun t => decide (t.status = TaskStatus.successful)) = true ↔
        ∀ j ∈ List.range' i l.length, (o j).1 = TaskStatus.successful := by
  intro l
  induction l with
  | nil => intro i; simp [runTasks]
  | cons t ts ih =>
    intro i
    simp [runTasks, List.range'_succ, ih (i + 1)]

theorem runTasks_filter_failed_nil (o : Nat → TaskStatus × Option Value) :
    ∀ (l : List Task) (i : Nat),
      ((runTasks o i l).filter fun t => decide (t.status = TaskStatus.failed)) = [] ↔
        ∀ j ∈ List.range' i l.length, (o j).1 ≠ TaskStatus.failed := by
  intro l
  induction l with
  | nil => intro i; simp [runTasks]
  | cons t ts ih =>
    intro i
    by_cases hf : (o i).1 = TaskStatus.failed
    · simp [runTasks, List.filter_cons, hf, List.range'_succ]
    · simp [runTasks, List.filter_cons, hf, List.range'_succ, ih (i + 1)]

theorem runTasks_failed_objective_mem (o : Nat → TaskStatus × Option Value) :
    ∀ (l : List Task) (i j : Nat) (hj : j < l.length),
      (o (i + j)).1 = TaskStatus.failed →
      (l.get ⟨j, hj⟩).objective ∈
        (((runTasks o i l).filter fun t =>
          decide (t.status = TaskStatus.failed)).map Task.objective) := by
  intro l
  induction l with
  | nil => intro i j hj; exact absurd hj (by simp)
  | cons t ts ih =>
    intro i j hj hfail
    cases j with
    | zero =>
      have h0 : (o i).1 = TaskStatus.failed := by simpa using hfail
      simp [runTasks, List.filter_cons, h0]
    | succ j' =>
      have hj' : j' < ts.length := by simpa using hj
      have harith : i + (j' + 1) = (i + 1) + j' := by omega
      rw [harith] at hfail
      have hmem := ih (i + 1) j' hj' hfail
      by_cases hf : (o i).1 = TaskStatus.failed
      · simp only [runTasks, List.filter_cons, hf]
        simpa using Or.inr hmem
      · simp only [runTasks, List.filter_cons, hf]
        simpa using hmem

theorem runTasks_isEmpty (o : Nat → TaskStatus × Option Value)
    (l : List Task) (i : Nat) : (runTasks o i l).isEmpty = l.isEmpty := by
  cases l <;> simp [runTasks]

theorem joinComma_containsSubstr :
    ∀ (l : List String) (s : String), s ∈ l → ∃ p q, joinComma l = p ++ s ++ q := by
  intro l
  induction l with
  | nil => intro s hs; exact absurd hs (by simp)
  | cons x xs ih =>
    intro s hs
    rcases List.mem_cons.mp hs with rfl | htail
    · cases xs with
      | nil => exact ⟨"", "", by simp [joinComma]⟩
      | cons y ys =>
        refine ⟨"", ", " ++ joinComma (y :: ys), ?_⟩
        simp [joinComma, String.append_assoc]
    · cases xs with
      | nil => exact absurd htail (by simp)
      | cons y ys =>
        obtain ⟨p, q, hpq⟩ := ih s htail
        refine ⟨x ++ ", " ++ p, q, ?_⟩
        simp [joinComma, hpq, String.append_assoc]

theorem lookup_isSome_of_mem :
    ∀ (l : List (String × Value)) (a : String) (b : Value),
      (a, b) ∈ l → ∃ v, l.lookup a = some v := by
  intro l
  induction l with
  | nil => intro a b h; exact absurd h (by simp)
  | cons x xs ih =>
    intro a b h
    rcases x with ⟨k, v⟩
    by_cases hk : a = k
    · exact ⟨v, by simp [List.lookup, hk]⟩
    · have hk' : (a == k) = false := by simp [hk]
      rcases List.mem_cons.mp h with heq | htail
      · exact absurd (congrArg Prod.fst heq) hk
      · obtain ⟨w, hw⟩ := ih a b htail
        exact ⟨w, by simp [List.lookup, hk', hw]⟩

theorem lookup_append_isSome :
    ∀ (l₁ l₂ : List (String × Value)) (a : String),
      ((∃ v, l₁.lookup a = some v) ∨ ∃ v, l₂.lookup a = some v) →
      ∃ v, (l₁ ++ l₂).lookup a = some v := by
  intro l₁
  induction l₁ with
  | nil =>
    intro l₂ a h
    rcases h with ⟨v, hv⟩ | h
    · exact absurd hv (by simp [List.lookup])
    · simpa using h
  | cons x xs ih =>
    intro l₂ a h
    rcases x with ⟨k, v⟩
    by_cases hk : (a == k) = true
    · exact ⟨v, by simp [List.lookup, hk]⟩
    · have hk' : (a == k) = false := by simpa using hk
      refine Exists.imp (fun w hw => ?_) (ih l₂ a ?_)
      · simpa [List.lookup, hk'] using hw
      · rcases h with ⟨w, hw⟩ | h
        · exact Or.inl ⟨w, by simpa [List.lookup, hk'] using hw⟩
        · exact Or.inr h

theorem exists_zip_of_mem :
    ∀ (l₁ : List Param) (l₂ : List Value) (p : Param),
      l₁.length ≤ l₂.length → p ∈ l₁ → ∃ v, (p, v) ∈ l₁.zip l₂ := by
  intro l₁
  induction l₁ with
  | nil => intro l₂ p h hp; exact absurd hp (by simp)
  | cons x xs ih =>
    intro l₂ p h hp
    cases l₂ with
    | nil => exact absurd h (by simp)
    | cons y ys =>
      rcases List.mem_cons.mp hp with rfl | htail
      · exact ⟨y, by simp⟩
      · obtain ⟨v, hv⟩ := ih ys p (by simpa using h) htail
        exact ⟨v, by simp [hv]⟩

theorem applyDefaults_keys :
    ∀ (params : List Param) (m : List (String × Value)),
      (∀ p ∈ params, (∃ v, m.lookup p.name = some v) ∨ ∃ d, p.default = some d) →
      (applyDefaults params m).map Prod.fst = params.map Param.name := by
  intro params
  induction params with
  | nil => intro m h; rfl
  | cons p ps ih =>
    intro m h
    have hp := h p (List.mem_cons_self p ps)
    have hps : List.map Prod.fst
        (List.filterMap
          (fun p =>
            match m.lookup p.name with
            | some v => some (p.name, v)
            | none => Option.map (fun d => (p.name, d)) p.default)
          ps) = List.map Param.name ps := by
      simpa [applyDefaults] using ih m fun q hq => h q (List.mem_cons_of_mem p hq)
    cases hlk : m.lookup p.name with
    | some v => simp [applyDefaults, List.filterMap_cons, hlk, hps]
    | none =>
      rcases hp with ⟨v, hv⟩ | ⟨d, hd⟩
      · rw [hlk] at hv; exact absurd hv (by simp)
      · simp [applyDefaults, List.filterMap_cons, hlk, hd, hps]

theorem bindArgs_lookup_or_default (params : List Param) (pos : List Value)
    (kw : List (String × Value)) (m : List (String × Value))
    (h : bindArgs params pos kw = Except.ok m) :
    pos.length ≤ params.length ∧
    ∀ p ∈ params, (∃ v, m.lookup p.name = some v) ∨ ∃ d, p.default = some d := by
  unfold bindArgs at h
  split_ifs at h with h1 h2 h3 h4
  have hlen : pos.length ≤ params.length := by omega
  refine ⟨hlen, ?_⟩
  have hm : m =
      ((params.take pos.length).zip pos).map (fun x => (x.1.name, x.2)) ++
        (params.drop pos.length).filterMap
          (fun p => (kw.lookup p.name).map fun v => (p.name, v)) :=
    (Except.ok.injEq _ _).mp h.symm
  intro p hp
  rw [← List.take_append_drop pos.length params] at hp
  rcases List.mem_append.mp hp with htake | hdrop
  · -- positionally bound: the zip covers every taken parameter
    have hle : (params.take pos.length).length ≤ pos.length :=
      params.length_take_le pos.length
    obtain ⟨v, hv⟩ := exists_zip_of_mem (params.take pos.length) pos p hle htake
    have hmem : (p.name, v) ∈
        ((params.take pos.length).zip pos).map (fun x => (x.1.name, x.2)) :=
      List.mem_map.mpr ⟨(p, v), hv, rfl⟩
    refine Or.inl ?_
    rw [hm]
    exact lookup_append_isSome _ _ _ (Or.inl (lookup_isSome_of_mem _ _ v hmem))
  · -- keyword bound or defaulted: the missing-required check rules out the rest
    simp only [List.any_eq_true, not_exists, not_and, Bool.and_eq_true,
      Option.isNone_iff_eq_none, List.all_eq_true, bne_iff_ne, ne_eq] at h4
    have hp4 := h4 p hdrop
    cases hd : p.default with
    | some d => exact Or.inr ⟨d, rfl⟩
    | none =>
      have hkw : ¬ ∀ a ∈ kw, ¬ a.1 = p.name := fun hall => hp4 hd hall
      push_neg at hkw
      obtain ⟨a, ha, hname⟩ := hkw
      have hksome : ∃ v, kw.lookup p.name = some v := by
        rcases a with ⟨an, av⟩
        have hname' : an = p.name := hname
        exact lookup_isSome_of_mem kw p.name av (hname' ▸ ha)
      obtain ⟨v, hv⟩ := hksome
      have hmem : (p.name, v) ∈
          (params.drop pos.length).filterMap
            (fun p => (kw.lookup p.name).map fun v => (p.name, v)) :=
        List.mem_filterMap.mpr ⟨p, hdrop, by simp [hv]⟩
      refine Or.inl ?_
      rw [hm]
      exact lookup_append_isSome _ _ _ (Or.inr (lookup_isSome_of_mem _ _ v hmem))

/-- C5: for every decorated function and every argument set its signature
accepts, the context mapping bound by the flow, task and dx task wrappers
(sig.bind followed by apply_defaults) has exactly the function's declared
parameter names as keys, in declaration order, with defaults applied for
omitted parameters: no extra keys and no missing keys. -/
theorem boundContext_exact_keys (params : List Param) (pos : List Value)
    (kw : List (String × Value)) (m : List (String × Value))
    (h : boundContext params pos kw = Except.ok m) :
    m.map Prod.fst = params.map Param.name := by
  unfold boundContext at h
  cases hb : bindArgs params pos kw with
  | error e => rw [hb] at h; exact absurd h (by simp [Except.map])
  | ok m₀ =>
    rw [hb] at h
    have hm : m = applyDefaults params m₀ := by
      simpa [Except.map] using h.symm
    obtain ⟨hlen, hall⟩ := bindArgs_lookup_or_default params pos kw m₀ hb
    rw [hm]
    exact applyDefaults_keys params m₀ hall

/-- Witness for boundContext_exact_keys: a two-parameter signature, one
argument passed positionally, the other omitted and filled by its default;
the bound mapping has exactly the two declared names as keys. -/
theorem boundContext_exact_keys_witness :
    boundContext [⟨"a", none⟩, ⟨"b", some (Value.vint 1)⟩] [Value.vstr "x"] [] =
      Except.ok [("a", Value.vstr "x"), ("b", Value.vint 1)] ∧
    List.map Prod.fst [("a", Value.vstr "x"), ("b", Value.vint 1)] =
      List.map Param.name [⟨"a", none⟩, ⟨"b", some (Value.vint 1)⟩] :=
  ⟨rfl, boundContext_exact_keys [⟨"a", none⟩, ⟨"b", some (Value.vint 1)⟩]
    [Value.vstr "x"] [] [("a", Value.vstr "x"), ("b", Value.vint 1)] rfl⟩

/-- C4: run_ai called with an empty list of objective strings completes
without raising and without returning any task-result list: whatever the
external runtime would do, the call ends in Python's implicit None return. -/
theorem run_ai_empty_objectives (agents : Option (List Agent))
    (cast : Option CastVal) (context : Option (List (String × Value)))
    (tools : Option (List Tool)) (user_access : Bool) (flow : Option Flow)
    (outcome : Nat → TaskStatus × Option Value) :
    run_ai (Sum.inr []) agents cast context tools user_access flow outcome =
      Except.ok RunAiValue.noneReturn := rfl

/-- C3: run_ai computes the defaulted cast (str, because an objective string
was supplied) but never applies it: with the external runtime producing the
integer 5 as result, run_ai returns the raw integer, while applying the
defaulted str cast to that result would produce the string rendering, a
different value. -/
theorem run_ai_cast_unused :
    run_ai (Sum.inl "count to three") none none none none false none
        (fun _ => (TaskStatus.successful, some (Value.vint 5))) =
      Except.ok (RunAiValue.single (some (Value.vint 5))) ∧
    applyCast CastVal.pyStr (some (Value.vint 5)) = some (Value.vstr "5") ∧
    some (Value.vint 5) ≠ applyCast CastVal.pyStr (some (Value.vint 5)) :=
  ⟨rfl, rfl, by decide⟩

/-- C6: get_tools returns the declared tools first, appends the
human-interaction tool exactly when user_access is true, and passes every
returned tool through the adaptation wrapping. The hypothesis records that
the human-interaction tool is created inside get_tools and is not among the
declared tools. -/
theorem get_tools_spec (a : Agent) (h : Tool.human ∉ a.declaredTools) :
    (a.user_access = false →
      a.get_tools = a.declaredTools.map wrap_prefect_tool ∧
        wrap_prefect_tool Tool.human ∉ a.get_tools) ∧
    (a.user_access = true →
      a.get_tools = a.declaredTools.map wrap_prefect_tool ++
        [wrap_prefect_tool Tool.human]) ∧
    (∀ t ∈ a.get_tools, ∃ u, t = wrap_prefect_tool u) := by
  refine ⟨fun hu => ⟨by simp [Agent.get_tools, hu], fun hmem => ?_⟩,
    fun hu => by simp [Agent.get_tools, hu, wrap_prefect_tool], fun t ht => ?_⟩
  · rw [show a.get_tools = a.declaredTools.map wrap_prefect_tool from
      by simp [Agent.get_tools, hu]] at hmem
    obtain ⟨u, hu', hw⟩ := List.mem_map.mp hmem
    have hhuman : u = Tool.human := by simpa [wrap_prefect_tool] using hw
    exact h (hhuman ▸ hu')
  · simp only [Agent.get_tools] at ht
    obtain ⟨u, _, hw⟩ := List.mem_map.mp ht
    exact ⟨u, hw.symm⟩

/-- Witness for get_tools_spec: a user_access agent with one declared tool
gets the wrapped declared tool followed by the wrapped human tool. -/
theorem get_tools_spec_witness :
    Tool.human ∉ (Agent.mk 7 "Marvin" true [Tool.declared "calculator"]).declaredTools ∧
    ((Agent.mk 7 "Marvin" true [Tool.declared "calculator"]).user_access = true →
      (Agent.mk 7 "Marvin" true [Tool.declared "calculator"]).get_tools =
        (Agent.mk 7 "Marvin" true
          [Tool.declared "calculator"]).declaredTools.map wrap_prefect_tool ++
          [wrap_prefect_tool Tool.human]) :=
  ⟨by decide, (get_tools_spec (Agent.mk 7 "Marvin" true
    [Tool.declared "calculator"]) (by decide)).2.1⟩

/-- C7: the blocking run form and the suspension-capable run_async form
execute identical logic: on the same agent, tasks, ambient flow and external
runtime behavior, the blocking form returns exactly the result of driving
the suspension-capable form to completion. -/
theorem run_eq_run_async (a : Agent) (tasks : Option (Task ⊕ List Task))
    (ambient : Option Flow) (runtime : Controller → Except String Value) :
    Agent.run a tasks ambient runtime =
      runSync (Agent.run_async a tasks ambient runtime) := rfl

/-- C9: the Agent hash is its object identity: every agent hashes equal to
itself, and two distinct agent objects carrying the same name have distinct
hashes. -/
theorem agent_hash_by_identity (a b : Agent) (hname : a.name = b.name)
    (hid : a.objectId ≠ b.objectId) :
    Agent.hashId a = Agent.hashId a ∧ Agent.hashId a ≠ Agent.hashId b :=
  ⟨rfl, hid⟩

/-- Witness for agent_hash_by_identity: two same-named agents at distinct
object identities hash differently. -/
theorem agent_hash_by_identity_witness :
    (Agent.mk 0 "Marvin" false []).name = (Agent.mk 1 "Marvin" false []).name ∧
    (Agent.mk 0 "Marvin" false []).objectId ≠ (Agent.mk 1 "Marvin" false []).objectId ∧
    (Agent.hashId (Agent.mk 0 "Marvin" false []) =
        Agent.hashId (Agent.mk 0 "Marvin" false []) ∧
      Agent.hashId (Agent.mk 0 "Marvin" false []) ≠
        Agent.hashId (Agent.mk 1 "Marvin" false [])) :=
  ⟨rfl, by decide,
    agent_hash_by_identity (Agent.mk 0 "Marvin" false [])
      (Agent.mk 1 "Marvin" false []) rfl (by decide)⟩

/-- C8 counterexample: the dx task decorator wrapping a documented function
without an explicit objective or instructions constructs a Task whose
instructions are unset, not the docstring (the docstring goes into the
objective instead), refuting the claim that the constructed Task's
instructions default to the docstring for both task decorators. -/
theorem dx_task_instructions_counterexample :
    dxTask ⟨"say_hello", some "Say hello", [], none⟩ none none none none none [] [] =
      Except.ok (newTask "say_hello: Say hello" none none [] none false []) ∧
    (newTask "say_hello: Say hello" none none [] none false []).instructions = none ∧
    (PyFunction.mk "say_hello" (some "Say hello") [] none).doc = some "Say hello" :=
  ⟨rfl, rfl, rfl⟩

/-- C8 (amended): wrapping a function without explicit objective or
instructions, the decorators-module task decorator constructs a Task whose
objective is the function name and whose instructions are the docstring,
while the dx-module task decorator constructs a Task whose objective is the
function name, suffixed with a colon and the docstring when a non-empty
docstring exists, and whose instructions stay unset; in both, the context is
the bound arguments with defaults applied, the result type is the declared
return annotation, tools default to empty and user_access to false. -/
theorem task_decorator_defaults (fn : PyFunction)
    (agents : Option (List Agent)) (pos : List Value)
    (kw : List (String × Value)) (ctxm : List (String × Value))
    (hbind : boundContext fn.params pos kw = Except.ok ctxm) :
    decoratorsTask fn none none agents none none pos kw =
      Except.ok (newTask fn.name fn.doc agents ctxm fn.returnAnnot false []) ∧
    dxTask fn none agents none none none pos kw =
      Except.ok (newTask
        (match fn.doc with
          | some d => if d = "" then fn.name else fn.name ++ ": " ++ d
          | none => fn.name)
        none agents ctxm fn.returnAnnot false []) := by
  constructor
  · simp [decoratorsTask, hbind, Except.map]
  · simp [dxTask, hbind, Except.map]

/-- Witness for task_decorator_defaults: a documented one-parameter function
called with one positional argument. -/
theorem task_decorator_defaults_witness :
    boundContext [⟨"who", none⟩] [Value.vstr "x"] [] =
      Except.ok [("who", Value.vstr "x")] ∧
    (decoratorsTask ⟨"say_hello", some "Say hello", [⟨"who", none⟩], some TypeAnnot.str⟩
        none none none none none [Value.vstr "x"] [] =
      Except.ok (newTask "say_hello" (some "Say hello") none
        [("who", Value.vstr "x")] (some TypeAnnot.str) false []) ∧
    dxTask ⟨"say_hello", some "Say hello", [⟨"who", none⟩], some TypeAnnot.str⟩
        none none none none none [Value.vstr "x"] [] =
      Except.ok (newTask "say_hello: Say hello" none none
        [("who", Value.vstr "x")] (some TypeAnnot.str) false [])) := by
  refine ⟨rfl, ?_⟩
  have h := task_decorator_defaults
    ⟨"say_hello", some "Say hello", [⟨"who", none⟩], some TypeAnnot.str⟩
    none [Value.vstr "x"] [] [("who", Value.vstr "x")] rfl
  simpa using h

/-- C1: for a non-empty objective input, when every created task ends the
controller run with status successful, run_ai returns the list of the task
results in task-creation order, and for a single objective string it returns
the bare result of that one task instead of a one-element list. -/
theorem run_ai_all_successful (tasksArg : String ⊕ List String)
    (agents : Option (List Agent)) (cast : Option CastVal)
    (context : Option (List (String × Value))) (tools : Option (List Tool))
    (user_access : Bool) (flow : Option Flow)
    (outcome : Nat → TaskStatus × Option Value)
    (hne : objectivesOf tasksArg ≠ [])
    (hsucc : ∀ j, j < (objectivesOf tasksArg).length →
      (outcome j).1 = TaskStatus.successful) :
    run_ai tasksArg agents cast context tools user_access flow outcome =
      Except.ok (match tasksArg with
        | Sum.inl _ => RunAiValue.single (outcome 0).2
        | Sum.inr objs =>
          RunAiValue.list ((List.range objs.length).map fun j => (outcome j).2)) := by
  cases tasksArg with
  | inl s =>
    have h0 : (outcome 0).1 = TaskStatus.successful :=
      hsucc 0 (by simp [objectivesOf])
    simp [run_ai, objectivesOf, runTasks, h0]
  | inr objs =>
    simp only [objectivesOf] at hne hsucc
    simp only [run_ai, objectivesOf]
    generalize hC : List.map (fun t =>
      newTask t none none (context.getD []) none user_access (tools.getD []))
      objs = created
    have hlen : created.length = objs.length := by
      rw [← hC]; exact List.length_map _ _
    have hpos : 0 < objs.length := by
      cases objs with
      | nil => exact absurd rfl hne
      | cons x rest => simp
    have htne : (runTasks outcome 0 created).isEmpty = false := by
      rw [runTasks_isEmpty]
      cases hc : created with
      | nil => rw [hc] at hlen; simp at hlen; omega
      | cons x rest => rfl
    have hall : ((runTasks outcome 0 created).all fun t =>
        decide (t.status = TaskStatus.successful)) = true := by
      rw [runTasks_all_success]
      intro j hj
      rw [List.mem_range'_1] at hj
      exact hsucc j (by omega)
    have hres : (runTasks outcome 0 created).map Task.result =
        (List.range objs.length).map fun j => (outcome j).2 := by
      rw [runTasks_map_result, hlen, List.range_eq_range' objs.length]
    simp [htne, hall, hres]

/-- Witness for run_ai_all_successful: two objectives, both successful, and
separately a single objective string whose bare result is returned. -/
theorem run_ai_all_successful_witness :
    objectivesOf (Sum.inr ["a", "b"]) ≠ [] ∧
    (∀ j, j < (objectivesOf (Sum.inr (α := String) ["a", "b"])).length →
      ((fun j => if j = 0 then (TaskStatus.successful, some (Value.vstr "ra"))
        else (TaskStatus.successful, some (Value.vstr "rb"))) j).1 =
        TaskStatus.successful) ∧
    run_ai (Sum.inr ["a", "b"]) none none none none false none
        (fun j => if j = 0 then (TaskStatus.successful, some (Value.vstr "ra"))
          else (TaskStatus.successful, some (Value.vstr "rb"))) =
      Except.ok (RunAiValue.list [some (Value.vstr "ra"), some (Value.vstr "rb")]) :=
  ⟨by decide, by decide,
    run_ai_all_successful (Sum.inr ["a", "b"]) none none none none false none
      (fun j => if j = 0 then (TaskStatus.successful, some (Value.vstr "ra"))
        else (TaskStatus.successful, some (Value.vstr "rb")))
      (by decide) (by decide)⟩

/-- C2: when at least one created task ends the controller run with status
failed (so not all are successful), run_ai raises an error whose message
contains the objective of every failed task, not only the first. -/
theorem run_ai_failed_error (tasksArg : String ⊕ List String)
    (agents : Option (List Agent)) (cast : Option CastVal)
    (context : Option (List (String × Value))) (tools : Option (List Tool))
    (user_access : Bool) (flow : Option Flow)
    (outcome : Nat → TaskStatus × Option Value)
    (j₀ : Nat) (hj₀ : j₀ < (objectivesOf tasksArg).length)
    (hfail : (outcome j₀).1 = TaskStatus.failed) :
    ∃ msg, run_ai tasksArg agents cast context tools user_access flow outcome =
        Except.error msg ∧
      ∀ j, ∀ hj : j < (objectivesOf tasksArg).length,
        (outcome j).1 = TaskStatus.failed →
        ContainsSubstr msg ((objectivesOf tasksArg).get ⟨j, hj⟩) := by
  simp only [run_ai]
  generalize hC : List.map (fun t =>
    newTask t none none (context.getD []) none user_access (tools.getD []))
    (objectivesOf tasksArg) = created
  have hlen : created.length = (objectivesOf tasksArg).length := by
    rw [← hC]; exact List.length_map _ _
  have htne : (runTasks outcome 0 created).isEmpty = false := by
    rw [runTasks_isEmpty]
    cases hc : created with
    | nil => rw [hc] at hlen; simp at hlen; omega
    | cons x rest => rfl
  have hallF : ((runTasks outcome 0 created).all fun t =>
      decide (t.status = TaskStatus.successful)) = false := by
    rw [Bool.eq_false_iff]
    intro hall
    rw [runTasks_all_success] at hall
    have hs := hall j₀ (by rw [List.mem_range'_1]; omega)
    rw [hfail] at hs
    exact TaskStatus.noConfusion hs
  have hfne : ((runTasks outcome 0 created).filter fun t =>
      decide (t.status = TaskStatus.failed)).isEmpty = false := by
    rw [Bool.eq_false_iff]
    intro hemp
    rw [List.isEmpty_iff, runTasks_filter_failed_nil] at hemp
    exact hemp j₀ (by rw [List.mem_range'_1]; omega) hfail
  refine ⟨"Failed tasks: " ++ joinComma (((runTasks outcome 0 created).filter
      fun t => decide (t.status = TaskStatus.failed)).map Task.objective),
    by simp [htne, hallF, hfne], ?_⟩
  intro j hj hjfail
  have hj' : j < created.length := by omega
  have hmem := runTasks_failed_objective_mem outcome created 0 j hj'
    (by rw [Nat.zero_add]; exact hjfail)
  have hobj : (created.get ⟨j, hj'⟩).objective =
      (objectivesOf tasksArg).get ⟨j, hj⟩ := by
    subst hC
    simp [List.get_eq_getElem, newTask]
  rw [hobj] at hmem
  obtain ⟨p, q, hpq⟩ := joinComma_containsSubstr _ _ hmem
  exact ⟨"Failed tasks: " ++ p, q, by rw [hpq]; simp [String.append_assoc]⟩

/-- Witness for run_ai_failed_error: three objectives with statuses
successful, failed, failed; the raised message contains both failed
objectives. -/
theorem run_ai_failed_error_witness :
    1 < (objectivesOf (Sum.inr (α := String) ["a", "b", "c"])).length ∧
    ((fun j => if j = 0 then (TaskStatus.successful, some (Value.vstr "ra"))
      else ((TaskStatus.failed, none) : TaskStatus × Option Value)) 1).1 =
      TaskStatus.failed ∧
    (∃ msg, run_ai (Sum.inr ["a", "b", "c"]) none none none none false none
        (fun j => if j = 0 then (TaskStatus.successful, some (Value.vstr "ra"))
          else ((TaskStatus.failed, none) : TaskStatus × Option Value)) =
        Except.error msg ∧
      ∀ j, ∀ hj : j < (objectivesOf (Sum.inr (α := String) ["a", "b", "c"])).length,
        ((fun j => if j = 0 then (TaskStatus.successful, some (Value.vstr "ra"))
          else ((TaskStatus.failed, none) : TaskStatus × Option Value)) j).1 =
          TaskStatus.failed →
        ContainsSubstr msg
          ((objectivesOf (Sum.inr (α := String) ["a", "b", "c"])).get ⟨j, hj⟩)) :=
  ⟨by decide, by decide,
    run_ai_failed_error (Sum.inr ["a", "b", "c"]) none none none none false none
      (fun j => if j = 0 then (TaskStatus.successful, some (Value.vstr "ra"))
        else ((TaskStatus.failed, none) : TaskStatus × Option Value))
      1 (by decide) (by decide)⟩

/-- C10: for a non-empty objective input, when after the controller run not
every task is successful and no task is failed (some task stays pending or
running), run_ai raises no error and returns no value: it falls through to
Python's implicit None, dropping the results of any tasks that did
succeed. -/
theorem run_ai_no_terminal_none (tasksArg : String ⊕ List String)
    (agents : Option (List Agent)) (cast : Option CastVal)
    (context : Option (List (String × Value))) (tools : Option (List Tool))
    (user_access : Bool) (flow : Option Flow)
    (outcome : Nat → TaskStatus × Option Value)
    (hne : objectivesOf tasksArg ≠ [])
    (hnot : ∃ j, j < (objectivesOf tasksArg).length ∧
      (outcome j).1 ≠ TaskStatus.successful)
    (hnofail : ∀ j, j < (objectivesOf tasksArg).length →
      (outcome j).1 ≠ TaskStatus.failed) :
    run_ai tasksArg agents cast context tools user_access flow outcome =
      Except.ok RunAiValue.noneReturn := by
  obtain ⟨j₀, hj₀, hns⟩ := hnot
  simp only [run_ai]
  generalize hC : List.map (fun t =>
    newTask t none none (context.getD []) none user_access (tools.getD []))
    (objectivesOf tasksArg) = created
  have hlen : created.length = (objectivesOf tasksArg).length := by
    rw [← hC]; exact List.length_map _ _
  have htne : (runTasks outcome 0 created).isEmpty = false := by
    rw [runTasks_isEmpty]
    cases hc : created with
    | nil => rw [hc] at hlen; simp at hlen; omega
    | cons x rest => rfl
  have hallF : ((runTasks outcome 0 created).all fun t =>
      decide (t.status = TaskStatus.successful)) = false := by
    rw [Bool.eq_false_iff]
    intro hall
    rw [runTasks_all_success] at hall
    exact hns (hall j₀ (by rw [List.mem_range'_1]; omega))
  have hfnil : ((runTasks outcome 0 created).filter fun t =>
      decide (t.status = TaskStatus.failed)) = [] := by
    rw [runTasks_filter_failed_nil]
    intro j hj
    rw [List.mem_range'_1] at hj
    exact hnofail j (by omega)
  simp [htne, hallF, hfnil]

/-- Witness for run_ai_no_terminal_none: two objectives, the first
successful with a result, the second still running; run_ai returns None and
the successful result is dropped. -/
theorem run_ai_no_terminal_none_witness :
    objectivesOf (Sum.inr (α := String) ["a", "b"]) ≠ [] ∧
    (∃ j, j < (objectivesOf (Sum.inr (α := String) ["a", "b"])).length ∧
      ((fun j => if j = 0 then (TaskStatus.successful, some (Value.vstr "ra"))
        else ((TaskStatus.running, none) : TaskStatus × Option Value)) j).1 ≠
        TaskStatus.successful) ∧
    (∀ j, j < (objectivesOf (Sum.inr (α := String) ["a", "b"])).length →
      ((fun j => if j = 0 then (TaskStatus.successful, some (Value.vstr "ra"))
        else ((TaskStatus.running, none) : TaskStatus × Option Value)) j).1 ≠
        TaskStatus.failed) ∧
    run_ai (Sum.inr ["a", "b"]) none none none none false none
        (fun j => if j = 0 then (TaskStatus.successful, some (Value.vstr "ra"))
          else ((TaskStatus.running, none) : TaskStatus × Option Value)) =
      Except.ok RunAiValue.noneReturn :=
  ⟨by decide, ⟨1, by decide, by decide⟩, by decide,
    run_ai_no_terminal_none (Sum.inr ["a", "b"]) none none none none false none
      (fun j => if j = 0 then (TaskStatus.successful, some (Value.vstr "ra"))
        else ((TaskStatus.running, none) : TaskStatus × Option Value))
      (by decide) ⟨1, by decide, by decide⟩ (by decide)⟩

end ControlFlow
